import Mathlib

/-!
Verification of the slurm-map job-lifecycle orchestration engine
(`src/slurm_map.py`, `src/utils.py`) against its specification.

The shallow embedding models the engine's pure control logic explicitly:
- serialization + hashing (`hashlib.md5(pickle.dumps x).hexdigest()`) is an
  external collaborator and appears as a parameter `hash : α → String`;
- the filesystem visible to the result collector appears as a read function
  `read : Nat → String → Option β` (pass number → file name → contents),
  so that an artifact may appear, or be transiently unreadable, at any pass;
- the scheduler's `sbatch` output appears as `sbatch : String → List Nat`
  (job ids parsed from the submission output for a given script), and
  `squeue` output as a plain `String`.
-/

namespace SlurmMap

/-! ### Artifact naming (slurm_map.py lines 50-51, 168) -/

/-- Result artifact file name for a content hash: `res_{hash}.dill`. -/
def resFileName (h : String) : String := "res_" ++ h ++ ".dill"

/-- Argument artifact file name for a content hash: `arg_{hash}.dill`. -/
def argFileName (h : String) : String := "arg_" ++ h ++ ".dill"

/-! ### Result collector (slurm_map.py lines 159-178)

Python:
```
results = [None]*len(data); succeeded = [False]*len(data)
iteration = 0; max_iterations = 20
while (not all(succeeded)) and (iteration < max_iterations):
    for i in [j for j in range(len(data)) if not succeeded[j]]:
        try:
            data_hash = md5(dumps(data[i])).hexdigest()
            results[i] = load(open(res_{data_hash}.dill)); succeeded[i] = True
        except Exception: pass
    iteration += 1
all_succeeded = all(succeeded)
```
State per index: the work item, its `results[i]` slot (`none` = Python `None`,
the missing-result sentinel), and its `succeeded[i]` flag. -/

/-- Per-index collector state: `(data[i], results[i], succeeded[i])`. -/
abbrev CEntry (α β : Type) := α × Option β × Bool

/-- One index of one pass of the collection loop: an index that already
succeeded is skipped; otherwise the result artifact for the item's content
hash is read, and on success the slot is filled and the flag set. -/
def collectStep (read : String → Option β) (hash : α → String) (e : CEntry α β) :
    CEntry α β :=
  if e.2.2 then e
  else
    match read (resFileName (hash e.1)) with
    | some v => (e.1, some v, true)
    | none => e

/-- One pass of the collection loop (`for i in [j ... if not succeeded[j]]`):
every not-yet-succeeded index is retried, independently. -/
def collectPass (read : String → Option β) (hash : α → String)
    (st : List (CEntry α β)) : List (CEntry α β) :=
  st.map (collectStep read hash)

/-- `all(succeeded)`. -/
def allSucceeded (st : List (CEntry α β)) : Bool := st.all (fun e => e.2.2)

/-- Retry ceiling of the collection loop (`max_iterations = 20`). -/
def maxIterations : Nat := 20

/-- The collection `while` loop. `fuel` is only a termination bound: run with
`fuel > maxIterations - iteration` it is never what stops the loop, the
source's own guard `(not all(succeeded)) and (iteration < max_iterations)`
is. Returns the final state and the final `iteration` counter. -/
def collectLoop (read : Nat → String → Option β) (hash : α → String) :
    Nat → Nat → List (CEntry α β) → List (CEntry α β) × Nat
  | 0, iteration, st => (st, iteration)
  | fuel + 1, iteration, st =>
    if allSucceeded st ∨ maxIterations ≤ iteration then (st, iteration)
    else collectLoop read hash fuel (iteration + 1)
        (collectPass (read iteration) hash st)

/-- The whole result-collection phase: initial state `[None]*n` / `[False]*n`,
then the bounded-retry loop. -/
def collectResults (read : Nat → String → Option β) (hash : α → String)
    (data : List α) : List (CEntry α β) × Nat :=
  collectLoop read hash (maxIterations + 1) 0
    (data.map (fun x => (x, (none, false))))

/-- The list `map` returns (line 187): the `results` slots, in input order;
`none` is the missing-result sentinel. -/
def mapReturn (read : Nat → String → Option β) (hash : α → String)
    (data : List α) : List (Option β) :=
  ((collectResults read hash data).1).map (fun e => e.2.1)

/-! ### Job submitter (startJobs, slurm_map.py lines 29-98)

Only the filesystem-visible control logic is modelled; writing the pickled
function, the kwargs file and the slurm script text are external
serialization effects. The state carries the hashes with an argument
artifact on disk, the hashes with a result artifact on disk, the hashes for
which `sbatch` was invoked during this pass (in order), and the job ids
parsed from the `sbatch` output during this pass. -/

structure SJState where
  argsDisk : List String
  resultsDisk : List String
  submittedHashes : List String
  job_ids : List Nat
deriving DecidableEq, Repr

/-- Loop body of `startJobs` (lines 47-82): compute the content hash of the
serialized payload (only `x`, never its index, enters the hash); if an
argument or result artifact already exists for that hash, `continue`;
otherwise write the argument artifact, invoke `sbatch` on the generated
script and append the parsed job ids. -/
def startJobsStep (hash : α → String) (sbatch : String → List Nat)
    (st : SJState) (x : α) : SJState :=
  if hash x ∈ st.argsDisk ∨ hash x ∈ st.resultsDisk then st
  else
    { argsDisk := hash x :: st.argsDisk
      resultsDisk := st.resultsDisk
      submittedHashes := st.submittedHashes ++ [hash x]
      job_ids := st.job_ids ++ sbatch (hash x) }

/-- The `for x in data` submission loop. -/
def startJobsLoop (hash : α → String) (sbatch : String → List Nat)
    (data : List α) (st : SJState) : SJState :=
  data.foldl (startJobsStep hash sbatch) st

/-- Ledger persistence after the loop (lines 91-98): read the previously
persisted `job_ids.json` if present and parseable (else `[]`), and overwrite
it with the concatenation of the previous ledger and this pass's ids. -/
def persistLedger (prevLedger : Option (List Nat)) (job_ids : List Nat) :
    List Nat :=
  prevLedger.getD [] ++ job_ids

/-- Whole `startJobs` call on a namespace whose disk state holds the given
argument artifacts, result artifacts and ledger file: returns the post-loop
state and the newly persisted ledger. The per-pass accumulators start empty
(`job_ids = []` at line 36). -/
def startJobs (hash : α → String) (sbatch : String → List Nat) (data : List α)
    (argsDisk resultsDisk : List String) (prevLedger : Option (List Nat)) :
    SJState × List Nat :=
  let st := startJobsLoop hash sbatch data
    { argsDisk := argsDisk, resultsDisk := resultsDisk,
      submittedHashes := [], job_ids := [] }
  (st, persistLedger prevLedger st.job_ids)

/-! ### Cleanup gating (slurm_map.py lines 178-187)

Python:
```
all_succeeded = all(succeeded)
if all_succeeded: print("Done.")
else: print("Warning: ... Clean up manually using 'python -m slurm_map cleanup ...'")
if cleanup and all_succeeded: robust_rmtree(folder)
return results
```
`robust_rmtree` on success removes the whole namespace directory tree; its
retry/backoff machinery is an external filesystem effect, modelled as a
successful removal. -/

structure FinalizeOutcome where
  folderDeleted : Bool
  guidanceEmitted : Bool
  doneMessage : Bool
deriving DecidableEq, Repr

/-- The tail of `map`: decides cleanup and user guidance from the
`succeeded` flags and the `cleanup` argument. -/
def mapFinalize (cleanup : Bool) (succeeded : List Bool) : FinalizeOutcome :=
  let all_succeeded := succeeded.all id
  { folderDeleted := cleanup && all_succeeded
    guidanceEmitted := !all_succeeded
    doneMessage := all_succeeded }

/-! ### Namespace resolver (slurm_map.py lines 121-126)

Python:
```
callee_filename = os.path.basename(inspect.stack()[1].filename).rstrip(".py")
args_hash = md5(json.dumps(kwargs)).hexdigest()
folder = os.path.join(".", SLURM_MAP_DIR, callee_filename, function.__name__, args_hash)
```
-/

/-- `os.path.basename`: the part after the last `/`. -/
def pyBasename (s : String) : String :=
  String.mk ((s.toList.reverse.takeWhile (fun c => c != '/')).reverse)

/-- Python `str.rstrip(chars)`: removes trailing characters that are members
of the character SET `chars` (not the trailing string `chars`). -/
def pyRstrip (chars : List Char) (s : String) : String :=
  String.mk ((s.toList.reverse.dropWhile (fun c => chars.contains c)).reverse)

/-- The caller-identity component: `basename(filename).rstrip(".py")`. -/
def calleeIdentity (filename : String) : String :=
  pyRstrip ['.', 'p', 'y'] (pyBasename filename)

/-- The namespace directory for the triple (caller file, function name,
kwargs hash). `os.path.join` with non-empty, separator-free components is
plain `/`-interposition. -/
def namespaceFolder (callerFile functionName args_hash : String) : String :=
  "./" ++ ".slurm_map" ++ "/" ++ calleeIdentity callerFile ++ "/" ++
    functionName ++ "/" ++ args_hash

/-! ### Remote execution entrypoint (compute, slurm_map.py lines 190-211)

Python:
```
try:
    res = function(args, **kwargs)
    with open(res_file, "wb") as f: pickle.dump(res, f)
finally:
    try: os.remove(arg_file)
    except FileNotFoundError: pass
```
The mapped function is `f : α → Except String β` (`.error` = the function
raised). The node-visible filesystem holds the argument artifact's presence
and the result artifact's contents; the event trace records the order of the
write and the removal. -/

inductive CEvent (β : Type) where
  | writeResult (v : β)
  | removeArg
deriving DecidableEq, Repr

structure NodeFS (β : Type) where
  argPresent : Bool
  resultFile : Option β
deriving DecidableEq, Repr

/-- `compute` on one node: returns the final filesystem, the ordered event
trace, and whether the process terminated with an uncaught exception.
`os.remove` on a missing argument file is swallowed (`except
FileNotFoundError: pass`), so only the mapped function's own exception can
propagate, whatever `fs.argPresent` was. -/
def compute (f : α → Except String β) (x : α) (fs : NodeFS β) :
    NodeFS β × List (CEvent β) × Bool :=
  match f x with
  | Except.ok v =>
    ({ argPresent := false, resultFile := some v },
      [CEvent.writeResult v, CEvent.removeArg], false)
  | Except.error _ =>
    ({ argPresent := false, resultFile := fs.resultFile },
      [CEvent.removeArg], true)

/-! ### Job monitor (utils.py lines 34-43, slurm_map.py lines 133-150)

Python:
```
def jobs_running(job_ids):
    if len(job_ids) == 0: return []
    squeue = <output of one "squeue -u $(whoami)" call>
    return [str(job_id) in squeue for job_id in job_ids]
```
The membership test `str(job_id) in squeue` is a substring test. The number
of scheduler status queries issued by the call is returned alongside. -/

/-- Substring test on character lists: `needle` occurs contiguously in
`hay`. Mirrors Python's `in` on strings. -/
def containsSub (hay needle : List Char) : Bool :=
  match hay with
  | [] => needle.isEmpty
  | c :: rest => needle.isPrefixOf (c :: rest) || containsSub rest needle

/-- `jobs_running`: one batched `squeue` query (none at all when the id list
is empty), then a substring-membership test per job id. Returns the
`running` flags and the number of status queries issued. -/
def jobs_running (squeueOutput : String) (job_ids : List Nat) :
    List Bool × Nat :=
  if job_ids.length = 0 then ([], 0)
  else
    (job_ids.map (fun id => containsSub squeueOutput.toList (toString id).toList),
      1)

/-- The poll loop of `map` (lines 133, 147-150): `running =
jobs_running(ids)`, then `while any(running): sleep(1); running =
jobs_running(ids)`. `squeueAt k` is the squeue output observed by the k-th
status query. Returns `some (sleeps, queries)` on termination within `fuel`
re-queries, `none` otherwise. -/
def pollLoopAux (squeueAt : Nat → String) (job_ids : List Nat) :
    Nat → List Bool → Nat → Nat → Option (Nat × Nat)
  | 0, running, sleeps, queries =>
    if running.any id then none else some (sleeps, queries)
  | fuel + 1, running, sleeps, queries =>
    if running.any id then
      let q := jobs_running (squeueAt (sleeps + 1)) job_ids
      pollLoopAux squeueAt job_ids fuel q.1 (sleeps + 1) (queries + q.2)
    else some (sleeps, queries)

def pollLoop (squeueAt : Nat → String) (job_ids : List Nat) (fuel : Nat) :
    Option (Nat × Nat) :=
  let q0 := jobs_running (squeueAt 0) job_ids
  pollLoopAux squeueAt job_ids fuel q0.1 0 q0.2

/-! ## Helper lemmas about the result collector -/

lemma collectStep_fst (r : String → Option β) (hash : α → String)
    (e : CEntry α β) : (collectStep r hash e).1 = e.1 := by
  unfold collectStep
  split
  · rfl
  · split <;> rfl

lemma collectStep_of_succeeded (r : String → Option β) (hash : α → String)
    (e : CEntry α β) (h : e.2.2 = true) : collectStep r hash e = e := by
  unfold collectStep
  simp [h]

lemma collectPass_fst_map (r : String → Option β) (hash : α → String)
    (st : List (CEntry α β)) :
    (collectPass r hash st).map (fun e => e.1) = st.map (fun e => e.1) := by
  unfold collectPass
  rw [List.map_map]
  exact List.map_congr_left (fun e _ => collectStep_fst r hash e)

lemma collectLoop_fst_map (read : Nat → String → Option β) (hash : α → String)
    (fuel it : Nat) (st : List (CEntry α β)) :
    ((collectLoop read hash fuel it st).1).map (fun e => e.1)
      = st.map (fun e => e.1) := by
  induction fuel generalizing it st with
  | zero => rfl
  | succ n ih =>
    unfold collectLoop
    split
    · rfl
    · rw [ih, collectPass_fst_map]

lemma collectLoop_length (read : Nat → String → Option β) (hash : α → String)
    (fuel it : Nat) (st : List (CEntry α β)) :
    ((collectLoop read hash fuel it st).1).length = st.length := by
  have h := congrArg List.length (collectLoop_fst_map read hash fuel it st)
  simpa using h

/-- The unconditional per-entry invariant of the collection loop: an
unresolved slot holds the `None` sentinel, a resolved slot holds a value. -/
def entryOk (e : CEntry α β) : Prop :=
  (e.2.2 = false → e.2.1 = none) ∧ (e.2.2 = true → e.2.1.isSome = true)

lemma collectStep_entryOk (r : String → Option β) (hash : α → String)
    (e : CEntry α β) (h : entryOk e) : entryOk (collectStep r hash e) := by
  unfold collectStep
  split
  · exact h
  · split
    · exact ⟨(fun h' => nomatch h'), fun _ => rfl⟩
    · exact h

lemma collectLoop_entryOk (read : Nat → String → Option β) (hash : α → String)
    (fuel it : Nat) (st : List (CEntry α β)) (h : ∀ e ∈ st, entryOk e) :
    ∀ e ∈ (collectLoop read hash fuel it st).1, entryOk e := by
  induction fuel generalizing it st with
  | zero => exact h
  | succ n ih =>
    unfold collectLoop
    split
    · exact h
    · refine ih _ _ (fun e he => ?_)
      unfold collectPass at he
      rw [List.mem_map] at he
      obtain ⟨a, ha, rfl⟩ := he
      exact collectStep_entryOk _ hash a (h a ha)

/-- The per-entry invariant when every readable result artifact holds the
mapped function's value: a resolved slot holds exactly `f` of its item. -/
def entryGood (f : α → β) (data : List α) (e : CEntry α β) : Prop :=
  e.1 ∈ data ∧ (e.2.2 = true → e.2.1 = some (f e.1))
    ∧ (e.2.2 = false → e.2.1 = none)

lemma collectStep_entryGood (f : α → β) (data : List α)
    (r : String → Option β) (hash : α → String)
    (Hr : ∀ x ∈ data, ∀ v, r (resFileName (hash x)) = some v → v = f x)
    (e : CEntry α β) (h : entryGood f data e) :
    entryGood f data (collectStep r hash e) := by
  obtain ⟨hmem, htrue, hfalse⟩ := h
  unfold collectStep
  split
  · exact ⟨hmem, htrue, hfalse⟩
  · split
    · next v hv =>
      refine ⟨hmem, fun _ => ?_, (fun h' => nomatch h')⟩
      rw [Hr e.1 hmem v hv]
    · exact ⟨hmem, htrue, hfalse⟩

lemma collectLoop_entryGood (f : α → β) (data : List α)
    (read : Nat → String → Option β) (hash : α → String)
    (Hread : ∀ (pass : Nat), ∀ x ∈ data, ∀ v,
      read pass (resFileName (hash x)) = some v → v = f x)
    (fuel it : Nat) (st : List (CEntry α β))
    (h : ∀ e ∈ st, entryGood f data e) :
    ∀ e ∈ (collectLoop read hash fuel it st).1, entryGood f data e := by
  induction fuel generalizing it st with
  | zero => exact h
  | succ n ih =>
    unfold collectLoop
    split
    · exact h
    · refine ih _ _ (fun e he => ?_)
      unfold collectPass at he
      rw [List.mem_map] at he
      obtain ⟨a, ha, rfl⟩ := he
      exact collectStep_entryGood f data _ hash (Hread it) a (h a ha)

lemma collectLoop_iter_le (read : Nat → String → Option β) (hash : α → String)
    (fuel it : Nat) (st : List (CEntry α β)) (h : it ≤ maxIterations) :
    (collectLoop read hash fuel it st).2 ≤ maxIterations := by
  induction fuel generalizing it st with
  | zero => exact h
  | succ n ih =>
    unfold collectLoop
    split
    · exact h
    · next hcond =>
      push_neg at hcond
      exact ih (it + 1) _ (Nat.succ_le_of_lt hcond.2)

/-! ## Claim theorems -/

/-- C9: for every input list, `map` returns a list whose length equals the
length of the input list, regardless of which reads succeeded: unresolved
indices are filled with the sentinel rather than omitted. -/
theorem c9_mapReturn_length (read : Nat → String → Option β)
    (hash : α → String) (data : List α) :
    (mapReturn read hash data).length = data.length := by
  unfold mapReturn collectResults
  rw [List.length_map, collectLoop_length, List.length_map]

/-- C5: the result-collection loop performs at most `maxIterations = 20`
passes; a pass leaves every already-resolved index untouched (only
not-yet-resolved indices are retried); after the loop every unresolved index
still holds the `none` missing sentinel; and the completion flag
`all(succeeded)` is true iff every index holds a value. -/
theorem c5_retry_ceiling_and_sentinel (read : Nat → String → Option β)
    (hash : α → String) (data : List α) :
    (collectResults read hash data).2 ≤ maxIterations
    ∧ (∀ (r : String → Option β) (e : CEntry α β), e.2.2 = true →
        collectStep r hash e = e)
    ∧ (∀ e ∈ (collectResults read hash data).1, e.2.2 = false → e.2.1 = none)
    ∧ (allSucceeded (collectResults read hash data).1 = true ↔
        ∀ e ∈ (collectResults read hash data).1, e.2.1.isSome = true) := by
  have hok : ∀ e ∈ (collectResults read hash data).1, entryOk e := by
    refine collectLoop_entryOk read hash _ _ _ (fun e he => ?_)
    rw [List.mem_map] at he
    obtain ⟨x, _, rfl⟩ := he
    exact ⟨(fun _ => rfl), (fun h => nomatch h)⟩
  refine ⟨collectLoop_iter_le read hash _ _ _ (Nat.zero_le _),
    (fun r e h => collectStep_of_succeeded r hash e h),
    (fun e he hf => (hok e he).1 hf), ?_⟩
  constructor
  · intro hall e he
    unfold allSucceeded at hall
    exact (hok e he).2 (List.all_eq_true.mp hall e he)
  · intro hsome
    unfold allSucceeded
    rw [List.all_eq_true]
    intro e he
    cases hb : e.2.2
    · have hnone := (hok e he).1 hb
      have := hsome e he
      rw [hnone] at this
      cases this
    · rfl

/-- Witness for C5 at a concrete input: one item whose result artifact never
appears; the loop stops within the ceiling, a resolved entry is left alone
by a pass, and the unresolved entry holds the sentinel. -/
theorem c5_retry_ceiling_and_sentinel_witness :
    (collectResults (fun _ _ => (none : Option Nat))
        (fun n : Nat => toString n) [0]).2 ≤ maxIterations
    ∧ collectStep (fun _ => (none : Option Nat)) (fun n : Nat => toString n)
        ((0, some 1, true) : CEntry Nat Nat) = (0, some 1, true)
    ∧ ((0, (none : Option Nat), false) : CEntry Nat Nat).2.1 = none := by
  have h := c5_retry_ceiling_and_sentinel
    (fun _ _ => (none : Option Nat)) (fun n : Nat => toString n) [0]
  exact ⟨h.1, h.2.1 _ _ rfl, h.2.2.1 (0, none, false) (by decide) rfl⟩

/-- C1: for a complete batch (the collector resolved every index within the
retry ceiling), the list `map` returns equals the mapped function applied to
each input element in input order, for ANY schedule `read` of artifact
availability across passes (i.e. regardless of the order in which jobs
finished), provided every readable result artifact holds the function's
value for its item. -/
theorem c1_map_result_order (f : α → β) (read : Nat → String → Option β)
    (hash : α → String) (data : List α)
    (Hread : ∀ (pass : Nat), ∀ x ∈ data, ∀ v,
      read pass (resFileName (hash x)) = some v → v = f x)
    (Hall : allSucceeded (collectResults read hash data).1 = true) :
    mapReturn read hash data = data.map (fun x => some (f x)) := by
  have hinit : ∀ e ∈ data.map (fun x => ((x, (none, false)) : CEntry α β)),
      entryGood f data e := by
    intro e he
    rw [List.mem_map] at he
    obtain ⟨x, hx, rfl⟩ := he
    exact ⟨hx, (fun h => nomatch h), (fun _ => rfl)⟩
  have hinv : ∀ e ∈ (collectResults read hash data).1, entryGood f data e :=
    collectLoop_entryGood f data read hash Hread _ _ _ hinit
  have hflag : ∀ e ∈ (collectResults read hash data).1, e.2.2 = true := by
    unfold allSucceeded at Hall
    exact List.all_eq_true.mp Hall
  have hfst : ((collectResults read hash data).1).map (fun e => e.1) = data := by
    unfold collectResults
    rw [collectLoop_fst_map, List.map_map]
    exact List.map_id data
  have hmain : ((collectResults read hash data).1).map (fun e => e.2.1)
      = ((collectResults read hash data).1).map (fun e => some (f e.1)) :=
    List.map_congr_left (fun e he => by rw [(hinv e he).2.1 (hflag e he)])
  unfold mapReturn
  rw [hmain]
  conv_rhs => rw [← hfst, List.map_map]
  rfl

/-- Witness for C1 at a concrete input. -/
theorem c1_map_result_order_witness :
    mapReturn (fun _ _ => some 0) (fun n : Nat => toString n) [5]
      = [5].map (fun _ => some 0) :=
  c1_map_result_order (fun _ => 0) (fun _ _ => some 0)
    (fun n : Nat => toString n) [5]
    (fun _ _ _ v hv => (Option.some.inj hv).symm)
    (by decide)

/-! ## Helper lemmas about the job submitter -/

lemma startJobsStep_skip_iff (hash : α → String) (sbatch : String → List Nat)
    (st : SJState) (x : α) :
    startJobsStep hash sbatch st x = st ↔
      (hash x ∈ st.argsDisk ∨ hash x ∈ st.resultsDisk) := by
  unfold startJobsStep
  constructor
  · intro heq
    by_contra hmem
    rw [if_neg hmem] at heq
    have hlen := congrArg (fun s => s.submittedHashes.length) heq
    simp at hlen
  · intro hmem
    rw [if_pos hmem]

/-- Invariant of the submission loop: every hash already submitted has an
argument artifact on disk, and no hash is submitted twice. -/
lemma startJobsLoop_inv (hash : α → String) (sbatch : String → List Nat)
    (data : List α) :
    ∀ st : SJState, (∀ h ∈ st.submittedHashes, h ∈ st.argsDisk) →
      st.submittedHashes.Nodup →
      (∀ h ∈ (startJobsLoop hash sbatch data st).submittedHashes,
        h ∈ (startJobsLoop hash sbatch data st).argsDisk)
      ∧ (startJobsLoop hash sbatch data st).submittedHashes.Nodup := by
  induction data with
  | nil => exact fun st hsub hnd => ⟨hsub, hnd⟩
  | cons x xs ih =>
    intro st hsub hnd
    have hstep : (∀ h ∈ (startJobsStep hash sbatch st x).submittedHashes,
        h ∈ (startJobsStep hash sbatch st x).argsDisk)
        ∧ (startJobsStep hash sbatch st x).submittedHashes.Nodup := by
      unfold startJobsStep
      split
      · exact ⟨hsub, hnd⟩
      · next hcond =>
        push_neg at hcond
        constructor
        · intro h hh
          rcases List.mem_append.mp hh with hh' | hh'
          · exact List.mem_cons_of_mem _ (hsub h hh')
          · rcases List.mem_singleton.mp hh' with rfl
            exact List.mem_cons_self _ _
        · rw [List.nodup_append]
          refine ⟨hnd, List.nodup_singleton _, ?_⟩
          intro h hh hh'
          rcases List.mem_singleton.mp hh' with rfl
          exact hcond.1 (hsub _ hh)
    exact ih (startJobsStep hash sbatch st x) hstep.1 hstep.2

/-- C2: the submitter hashes only the serialized payload (the item's index
never enters `startJobsStep`); an item is skipped exactly when an argument
or result artifact for its hash already exists on disk; consequently over a
whole submission pass no content hash is submitted twice — two items with
identical serialized payload have identical hash, at most one job between
them, and their results are read from the same result artifact. -/
theorem c2_dedup_idempotence (hash : α → String) (sbatch : String → List Nat)
    (data : List α) (argsDisk resultsDisk : List String)
    (prevLedger : Option (List Nat)) :
    (∀ (st : SJState) (x : α),
      startJobsStep hash sbatch st x = st ↔
        (hash x ∈ st.argsDisk ∨ hash x ∈ st.resultsDisk))
    ∧ ((startJobs hash sbatch data argsDisk resultsDisk
        prevLedger).1).submittedHashes.Nodup
    ∧ (∀ x y : α, hash x = hash y →
        resFileName (hash x) = resFileName (hash y)) := by
  refine ⟨(fun st x => startJobsStep_skip_iff hash sbatch st x), ?_,
    (fun x y h => by rw [h])⟩
  have hinv := startJobsLoop_inv hash sbatch data
    { argsDisk := argsDisk, resultsDisk := resultsDisk,
      submittedHashes := [], job_ids := [] }
    (fun h hh => absurd hh (List.not_mem_nil h)) List.nodup_nil
  exact hinv.2

/-- Witness for C2 at a concrete input: the duplicated payload `5` is
submitted once. -/
theorem c2_dedup_idempotence_witness :
    ((startJobs (fun n : Nat => toString n) (fun _ => [1]) [5, 5] [] []
        none).1).submittedHashes.Nodup
    ∧ resFileName (toString 5) = resFileName (toString 5) := by
  have h := c2_dedup_idempotence (fun n : Nat => toString n) (fun _ => [1])
    [5, 5] [] [] none
  exact ⟨h.2.1, h.2.2 5 5 rfl⟩

/-- C6: after a submission pass, the persisted ledger is the previously
persisted ledger (read if present, else empty) extended with the job ids
newly parsed during this pass; no previously recorded identifier is
removed. -/
theorem c6_ledger_merge (hash : α → String) (sbatch : String → List Nat)
    (data : List α) (argsDisk resultsDisk : List String)
    (prevLedger : Option (List Nat)) :
    (startJobs hash sbatch data argsDisk resultsDisk prevLedger).2
      = prevLedger.getD []
        ++ ((startJobs hash sbatch data argsDisk resultsDisk
            prevLedger).1).job_ids
    ∧ (∀ jid ∈ prevLedger.getD [],
        jid ∈ (startJobs hash sbatch data argsDisk resultsDisk
          prevLedger).2) := by
  refine ⟨rfl, fun jid hid => ?_⟩
  exact List.mem_append_left _ hid

/-- Witness for C6 at a concrete input: a previously persisted id `7`
survives the new pass. -/
theorem c6_ledger_merge_witness :
    (startJobs (fun n : Nat => toString n) (fun _ => [1]) [5] [] []
        (some [7])).2
      = (some [7] : Option (List Nat)).getD []
        ++ ((startJobs (fun n : Nat => toString n) (fun _ => [1]) [5] [] []
            (some [7])).1).job_ids
    ∧ 7 ∈ (startJobs (fun n : Nat => toString n) (fun _ => [1]) [5] [] []
        (some [7])).2 := by
  have h := c6_ledger_merge (fun n : Nat => toString n) (fun _ => [1])
    [5] [] [] (some [7])
  exact ⟨h.1, h.2 7 (by decide)⟩

/-- C3 counterexample: with `cleanup=False` (an explicit `map` parameter) and
a fully successful batch, the namespace is NOT deleted although the Result
Collector reported full completion — the claimed "deleted iff complete"
equivalence fails. -/
theorem c3_cleanup_iff_counterexample :
    ¬ (((mapFinalize false [true]).folderDeleted = true) ↔
        ([true].all id = true)) := by decide

/-- C3 (amended): the namespace directory tree is deleted iff the `cleanup`
argument is enabled AND the Result Collector reported full completion; when
any item remains unresolved nothing is deleted and the manual-cleanup
guidance is emitted, and it is emitted only then. -/
theorem c3_cleanup_gating (cleanup : Bool) (succeeded : List Bool) :
    ((mapFinalize cleanup succeeded).folderDeleted = true ↔
      (cleanup = true ∧ succeeded.all id = true))
    ∧ (succeeded.all id = false →
        (mapFinalize cleanup succeeded).folderDeleted = false
        ∧ (mapFinalize cleanup succeeded).guidanceEmitted = true)
    ∧ (succeeded.all id = true →
        (mapFinalize cleanup succeeded).guidanceEmitted = false) := by
  cases cleanup <;> cases h : succeeded.all id <;> simp [mapFinalize, h]

/-- Witness for the amended C3 at a concrete input: one unresolved item,
cleanup enabled — nothing is deleted and guidance is emitted. -/
theorem c3_cleanup_gating_witness :
    (mapFinalize true [false]).folderDeleted = false
    ∧ (mapFinalize true [false]).guidanceEmitted = true :=
  (c3_cleanup_gating true [false]).2.1 (by decide)

/-- C4: the no-collision contract of the Namespace Resolver fails on the
code. `rstrip(".py")` strips trailing characters from the SET
`{'.','p','y'}` rather than the suffix `".py"`, so the distinct caller
programs `happy.py` and `happ.py` (same function name, same kwargs hash —
two different triples) resolve to the same namespace directory. -/
theorem c4_namespace_collision :
    namespaceFolder "happy.py" "f" "h" = namespaceFolder "happ.py" "f" "h"
    ∧ ("happy.py" : String) ≠ "happ.py"
    ∧ calleeIdentity "happy.py" = "ha" := by
  refine ⟨by decide, by decide, by decide⟩

/-- C7: the remote execution entrypoint removes the argument artifact in a
`finally` block, so it is removed whether or not the mapped function raised
(and removing an already-missing argument file raises nothing new); on
failure no result artifact is written; on success the result artifact is
written before the argument artifact is removed. -/
theorem c7_compute_removal_order (f : α → Except String β) (x : α)
    (fs : NodeFS β) :
    (∀ e, f x = Except.error e →
      (compute f x fs).1.argPresent = false
      ∧ (compute f x fs).2.1 = [CEvent.removeArg]
      ∧ (compute f x fs).1.resultFile = fs.resultFile)
    ∧ (∀ v, f x = Except.ok v →
      (compute f x fs).2.1 = [CEvent.writeResult v, CEvent.removeArg]
      ∧ (compute f x fs).1.resultFile = some v
      ∧ (compute f x fs).1.argPresent = false)
    ∧ ((compute f x fs).2.2 = true ↔ ∃ e, f x = Except.error e)
    ∧ (∀ fs' : NodeFS β, (compute f x fs').2.2 = (compute f x fs).2.2
        ∧ CEvent.removeArg ∈ (compute f x fs').2.1) := by
  cases hf : f x with
  | ok v => simp [compute, hf]
  | error e => simp [compute, hf]

/-- Witness for C7 at a concrete input: the function raises on `0`; the
argument artifact is removed and no result artifact appears. -/
theorem c7_compute_removal_order_witness :
    (compute (fun n : Nat => if n = 0 then Except.error "boom"
        else Except.ok n) 0 ⟨true, (none : Option Nat)⟩).1.argPresent = false
    ∧ (compute (fun n : Nat => if n = 0 then Except.error "boom"
        else Except.ok n) 0 ⟨true, (none : Option Nat)⟩).2.1
      = [CEvent.removeArg]
    ∧ (compute (fun n : Nat => if n = 0 then Except.error "boom"
        else Except.ok n) 0
        ⟨true, (none : Option Nat)⟩).1.resultFile
      = (⟨true, (none : Option Nat)⟩ : NodeFS Nat).resultFile :=
  (c7_compute_removal_order
    (fun n : Nat => if n = 0 then Except.error "boom" else Except.ok n) 0
    ⟨true, none⟩).1 "boom" rfl

/-! ## Helper lemmas about the job monitor -/

lemma containsSub_iff (needle hay : List Char) :
    containsSub hay needle = true ↔ needle <:+: hay := by
  induction hay with
  | nil =>
    simp only [containsSub, List.isEmpty_iff]
    simp
  | cons c rest ih =>
    simp only [containsSub, Bool.or_eq_true, ih,
      List.isPrefixOf_iff_prefix, List.infix_cons_iff]

lemma zip_map_snd {γ δ : Type} (g : γ → δ) (l : List γ) :
    ∀ p ∈ l.zip (l.map g), p.2 = g p.1 := by
  induction l with
  | nil => intro p hp; cases hp
  | cons a l ih =>
    intro p hp
    rcases List.mem_cons.mp hp with rfl | hp
    · rfl
    · exact ih p hp

/-- C8: the job monitor issues exactly one batched `squeue` query per call
(zero when the id list is empty, never one per job), and flags a job as
running exactly when the job id's decimal form occurs as a substring of the
query output. -/
theorem c8_single_query_substring (squeueOutput : String)
    (job_ids : List Nat) :
    (jobs_running squeueOutput job_ids).2 = (if job_ids = [] then 0 else 1)
    ∧ ∀ p ∈ job_ids.zip (jobs_running squeueOutput job_ids).1,
        (p.2 = true ↔ (toString p.1).toList <:+: squeueOutput.toList) := by
  rcases eq_or_ne job_ids [] with rfl | hne
  · exact ⟨by simp [jobs_running], by simp⟩
  · have hq : jobs_running squeueOutput job_ids
        = (job_ids.map
            (fun jid => containsSub squeueOutput.toList (toString jid).toList),
          1) := by
      unfold jobs_running
      rw [if_neg (by simpa using hne)]
    refine ⟨by rw [hq, if_neg hne], ?_⟩
    intro p hp
    rw [hq] at hp
    rw [zip_map_snd
      (fun jid => containsSub squeueOutput.toList (toString jid).toList)
      job_ids p hp]
    exact containsSub_iff _ _

/-- Witness for C8 at a concrete input: id 12 occurs in the squeue output,
so it is reported running. -/
theorem c8_single_query_substring_witness :
    (true = true ↔ ("12" : String).toList <:+: ("a12b" : String).toList) := by
  have h := c8_single_query_substring "a12b" [12]
  exact h.2 (12, true) (by decide)

/-- C10: with an empty job-identifier list, `jobs_running` returns `[]`
without issuing any scheduler status query, and the poll loop of `map`
terminates immediately: zero sleeps and zero queries, whatever the
scheduler would have answered. -/
theorem c10_empty_ids_no_query (squeueOutput : String) :
    jobs_running squeueOutput [] = ([], 0)
    ∧ ∀ (squeueAt : Nat → String) (fuel : Nat),
        pollLoop squeueAt [] fuel = some (0, 0) := by
  refine ⟨rfl, fun squeueAt fuel => ?_⟩
  cases fuel <;> rfl

end SlurmMap
